import Mathlib

/-!
Verification of the ink-text-input widget (src/source/index.tsx).

The component is embedded shallowly:

* `InputState` mirrors the `useState` triple `{cursorOffset, cursorWidth,
  isHighlighted}`.  `cursorOffset` is an `Int` because the source decrements
  a JavaScript number without a same-step guard, so negative values are
  representable (and, as proved below, actually produced).
* `reduce` is the `useInput` handler (lines 176-259 of the source): it takes
  the config flag `showCursor`, the current value, the current state and one
  key event, and returns the next state together with the callback activity
  of that step (`submitted` models the single `onSubmit` call, `changed`
  the single `onChange` call, `stateWritten` whether `setState` ran).
* `focusEffect` and `valueEffect` are the two `useEffect` reconciliation
  rules (lines 116-129 and 132-139).
* `render` is the rendering pass (lines 141-174 and 271-275); styled text is
  modelled structurally as a list of `(style, text)` segments produced by the
  chalk helper, and `stripStyles` concatenates the raw text back.
* `jsSlice` implements ECMAScript `String.prototype.slice` with its
  negative-index semantics; strings are sequences of characters (the source
  only does code-unit counting and the claims never involve surrogate pairs).
-/

/-- ECMAScript slice index resolution: negative indices count from the end,
the result is clamped into `[0, len]`. -/
def jsSliceIdx (len : Nat) (i : Int) : Nat :=
  if i < 0 then ((len : Int) + i).toNat else min i.toNat len

/-- ECMAScript `String.prototype.slice(start, stop)`. -/
def jsSlice (s : String) (start stop : Int) : String :=
  let a := jsSliceIdx s.length start
  let b := jsSliceIdx s.length stop
  String.mk ((s.toList.take b).drop a)

/-- JavaScript `mask.repeat(n)`: `n` copies of `s` concatenated. -/
def repeatStr (s : String) : Nat → String
  | 0 => ""
  | n + 1 => s ++ repeatStr s n

/-- The component state held in `useState` (source lines 107-111). -/
structure InputState where
  cursorOffset : Int
  cursorWidth : Nat
  isHighlighted : Bool
deriving Repr, DecidableEq

/-- One decoded keyboard event as delivered by ink's `useInput`:
the text payload plus the named modifier flags the handler inspects. -/
structure KeyEvent where
  input : String
  upArrow : Bool
  downArrow : Bool
  leftArrow : Bool
  rightArrow : Bool
  returnKey : Bool
  backspace : Bool
  del : Bool
  ctrl : Bool
  shift : Bool
  tab : Bool
deriving Repr, DecidableEq

/-- An event with empty payload and every flag cleared. -/
def noKeys : KeyEvent :=
  ⟨"", false, false, false, false, false, false, false, false, false, false⟩

/-- Result of one run of the `useInput` handler: the state left behind,
whether `setState` was called, the resulting value (`nextValue`), and the
arguments of the at-most-one `onSubmit` / `onChange` invocation. -/
structure ReducerResult where
  state : InputState
  stateWritten : Bool
  value : String
  submitted : Option String
  changed : Option String
deriving Repr, DecidableEq

/-- The early-return filter (source lines 178-186): up/down arrows, ctrl+c,
tab and shift+tab are ignored. -/
def ignoredEvent (k : KeyEvent) : Bool :=
  k.upArrow || k.downArrow || (k.ctrl && k.input == "c") || k.tab ||
    (k.shift && k.tab)

/-- The editing branches of the handler (source lines 196-238): starting
from `(nextCursorOffset, nextValue, nextCursorWidth, nextIsHighlighted) =
(cursorOffset, originalValue, 0, isHighlighted)`, each branch overwrites the
components it assigns.  Returns the state triple (before clamping) paired
with `nextValue`. -/
def reduceEdit (showCursor : Bool) (originalValue : String) (st : InputState)
    (k : KeyEvent) : InputState × String :=
  if k.leftArrow then
    if showCursor then (⟨st.cursorOffset - 1, 0, false⟩, originalValue)
    else (⟨st.cursorOffset, 0, st.isHighlighted⟩, originalValue)
  else if k.rightArrow then
    if showCursor then (⟨st.cursorOffset + 1, 0, false⟩, originalValue)
    else (⟨st.cursorOffset, 0, st.isHighlighted⟩, originalValue)
  else if k.backspace || k.del then
    if st.cursorOffset > 0 then
      (⟨st.cursorOffset - 1, 0, false⟩,
       jsSlice originalValue 0 (st.cursorOffset - 1) ++
         jsSlice originalValue st.cursorOffset (originalValue.length : Int))
    else (⟨st.cursorOffset, 0, st.isHighlighted⟩, originalValue)
  else
    let nextCursorWidth := if k.input.length > 1 then k.input.length else 0
    if st.isHighlighted then
      (⟨(k.input.length : Int), nextCursorWidth, false⟩, k.input)
    else
      (⟨st.cursorOffset + (k.input.length : Int), nextCursorWidth, false⟩,
       jsSlice originalValue 0 st.cursorOffset ++ k.input ++
         jsSlice originalValue st.cursorOffset (originalValue.length : Int))

/-- The post-step clamp (source lines 240-246).  Both guards test the
pre-step `cursorOffset` (`oldOffset`), not the freshly computed
`nextCursorOffset` (`next`), exactly as the source does. -/
def clampStale (originalValue : String) (oldOffset next : Int) : Int :=
  let afterLow := if oldOffset < 0 then 0 else next
  if oldOffset > (originalValue.length : Int) then (originalValue.length : Int)
  else afterLow

/-- The `useInput` handler (source lines 176-259): the ignore filter, the
return branch (which only emits the submit callback), the editing branches,
the stale clamp, the `setState` write, and the guarded `onChange` emission.
`submitted` / `changed` hold the argument of the at-most-one callback
invocation of this step. -/
def reduce (showCursor : Bool) (originalValue : String) (st : InputState)
    (k : KeyEvent) : ReducerResult :=
  if ignoredEvent k then
    { state := st, stateWritten := false, value := originalValue,
      submitted := none, changed := none }
  else if k.returnKey then
    { state := st, stateWritten := false, value := originalValue,
      submitted := some originalValue, changed := none }
  else
    let r := reduceEdit showCursor originalValue st k
    let nextValue := r.2
    { state := { cursorOffset := clampStale originalValue st.cursorOffset
                   r.1.cursorOffset,
                 cursorWidth := r.1.cursorWidth,
                 isHighlighted := r.1.isHighlighted },
      stateWritten := true, value := nextValue, submitted := none,
      changed := if nextValue ≠ originalValue then some nextValue else none }

/-- The focus/highlight `useEffect` (source lines 116-129), run whenever
`focus` or `highlightOnFocus` change. -/
def focusEffect (focus highlightOnFocus : Bool) (originalValue : String)
    (st : InputState) : InputState :=
  if focus && highlightOnFocus then
    { st with isHighlighted := true,
              cursorOffset := (originalValue.length : Int) }
  else if !focus then
    { st with isHighlighted := false }
  else st

/-- The value-change `useEffect` (source lines 132-139), clamping the cursor
down when the externally supplied value shrinks. -/
def valueEffect (originalValue : String) (st : InputState) : InputState :=
  if st.cursorOffset > (originalValue.length : Int) then
    { st with cursorOffset := (originalValue.length : Int) }
  else st

/-- Styling intents produced by the chalk helper: inverse video or grey/dim. -/
inductive Style where
  | plain
  | inverse
  | grey
deriving Repr, DecidableEq

/-- A run of characters with one styling intent. -/
structure Segment where
  style : Style
  text : String
deriving Repr, DecidableEq

/-- Styled terminal text: a sequence of styled runs. -/
abbrev StyledText := List Segment

/-- Remove every styling marker, keeping the raw characters. -/
def stripStyles : StyledText → String
  | [] => ""
  | s :: rest => s.text ++ stripStyles rest

/-- Mask application (source line 143): a set, non-empty mask string is
repeated once per character of the real value; an absent or empty (falsy)
mask leaves the value unchanged. -/
def maskValue (mask : Option String) (originalValue : String) : String :=
  match mask with
  | some m => if m.length > 0 then repeatStr m originalValue.length
              else originalValue
  | none => originalValue

/-- The character loop of cursor-mode rendering (source lines 156-165):
character `i` is inverse when
`cursorOffset - cursorActualWidth ≤ i ≤ cursorOffset`. -/
def cursorLoop (cursorOffset : Int) (cursorActualWidth : Nat) :
    Nat → List Char → StyledText
  | _, [] => []
  | i, c :: cs =>
    (if cursorOffset - (cursorActualWidth : Int) ≤ (i : Int) ∧
        (i : Int) ≤ cursorOffset
     then Segment.mk Style.inverse (String.mk [c])
     else Segment.mk Style.plain (String.mk [c])) ::
      cursorLoop cursorOffset cursorActualWidth (i + 1) cs

/-- Cursor-mode rendered value (source lines 154-169): an inverse space for
an empty value, the character loop, and a trailing inverse space when the
cursor sits exactly at the end of a non-empty value. -/
def renderedValueCursor (cursorOffset : Int) (cursorActualWidth : Nat)
    (value : String) : StyledText :=
  (if value.length > 0 then [] else [Segment.mk Style.inverse " "]) ++
  cursorLoop cursorOffset cursorActualWidth 0 value.toList ++
  (if value.length > 0 ∧ cursorOffset = (value.length : Int)
   then [Segment.mk Style.inverse " "] else [])

/-- Render-time configuration of the component. -/
structure RenderConfig where
  placeholder : String
  focus : Bool
  mask : Option String
  showCursor : Bool
  highlightPastedText : Bool
deriving Repr, DecidableEq

/-- The rendering pass (source lines 141-174 and the JSX child expression at
lines 271-275): mask application, the three mutually exclusive rendering
modes, and the placeholder substitution. -/
def render (cfg : RenderConfig) (originalValue : String) (st : InputState) :
    StyledText :=
  let cursorActualWidth := if cfg.highlightPastedText then st.cursorWidth
                           else 0
  let value := maskValue cfg.mask originalValue
  let renderedValue :=
    if cfg.showCursor && cfg.focus && !st.isHighlighted then
      renderedValueCursor st.cursorOffset cursorActualWidth value
    else if st.isHighlighted then [Segment.mk Style.inverse value]
    else [Segment.mk Style.plain value]
  let renderedPlaceholder :=
    if cfg.showCursor && cfg.focus && !st.isHighlighted then
      (if cfg.placeholder.length > 0 then
        [Segment.mk Style.inverse (String.mk [cfg.placeholder.toList.headD ' ']),
         Segment.mk Style.grey (String.mk cfg.placeholder.toList.tail)]
      else [Segment.mk Style.inverse " "])
    else if st.isHighlighted then
      (if cfg.placeholder.length > 0
       then [Segment.mk Style.inverse cfg.placeholder] else [])
    else
      (if cfg.placeholder.length > 0
       then [Segment.mk Style.grey cfg.placeholder] else [])
  if cfg.placeholder.length > 0 then
    (if value.length > 0 then renderedValue else renderedPlaceholder)
  else renderedValue

/-! Helper lemmas about the embedded string primitives. -/

theorem length_eq_toList_length (s : String) : s.length = s.toList.length :=
  rfl

theorem jsSliceIdx_ofNat (len k : Nat) (h : k ≤ len) :
    jsSliceIdx len (k : Int) = k := by
  unfold jsSliceIdx
  simp [h]

theorem jsSlice_take (v : String) (k : Nat) (hk : k ≤ v.length) :
    jsSlice v 0 (k : Int) = String.mk (v.toList.take k) := by
  unfold jsSlice
  rw [show (0 : Int) = ((0 : Nat) : Int) from rfl,
    jsSliceIdx_ofNat v.length 0 (Nat.zero_le _), jsSliceIdx_ofNat v.length k hk]
  simp

theorem jsSlice_suffix (v : String) (k : Nat) :
    jsSlice v (k : Int) (v.length : Int) = String.mk (v.toList.drop k) := by
  have ha : jsSliceIdx v.length (k : Int) = min k v.length := by
    unfold jsSliceIdx
    simp
  have ht : v.toList.take v.length = v.toList := by
    rw [length_eq_toList_length, List.take_length]
  unfold jsSlice
  simp only [ha, jsSliceIdx_ofNat v.length v.length le_rfl, ht]
  rcases le_total k v.length with h | h
  · rw [min_eq_left h]
  · have h1 : v.toList.length ≤ k := by
      rw [← length_eq_toList_length]
      exact h
    rw [min_eq_right h, length_eq_toList_length, List.drop_length,
      List.drop_eq_nil_of_le h1]

theorem stripStyles_append (a b : StyledText) :
    stripStyles (a ++ b) = stripStyles a ++ stripStyles b := by
  induction a with
  | nil => simp [stripStyles]
  | cons s rest ih => simp [stripStyles, ih, String.append_assoc]

theorem stripStyles_cursorLoop (off : Int) (w i : Nat) (cs : List Char) :
    stripStyles (cursorLoop off w i cs) = String.mk cs := by
  induction cs generalizing i with
  | nil => rfl
  | cons c rest ih =>
    unfold cursorLoop
    split <;> (simp [stripStyles, ih]; rfl)

theorem repeatStr_length (s : String) (n : Nat) :
    (repeatStr s n).length = n * s.length := by
  induction n with
  | zero => simp [repeatStr]
  | succ n ih =>
    show (s ++ repeatStr s n).length = (n + 1) * s.length
    simp [ih]
    ring

theorem mk_toList (s : String) : String.mk s.toList = s :=
  rfl

/-- Splicing a value back together at any index (the prefix slice's stop and
the suffix slice's start are the same expression) reproduces the value. -/
theorem jsSlice_splice_id (v : String) (off : Int) :
    jsSlice v 0 off ++ jsSlice v off (v.length : Int) = v := by
  unfold jsSlice
  have h0 : jsSliceIdx v.length 0 = 0 := by
    rw [show (0 : Int) = ((0 : Nat) : Int) from rfl]
    exact jsSliceIdx_ofNat v.length 0 (Nat.zero_le _)
  have hb : jsSliceIdx v.length (v.length : Int) = v.length :=
    jsSliceIdx_ofNat v.length v.length le_rfl
  have ht : v.toList.take v.length = v.toList := by
    rw [length_eq_toList_length, List.take_length]
  simp only [h0, hb, ht, List.drop_zero]
  show String.mk (v.toList.take (jsSliceIdx v.length off) ++
    v.toList.drop (jsSliceIdx v.length off)) = v
  rw [List.take_append_drop]
  rfl

/-- On a non-ignored, non-return event the handler writes the edited state
with the stale clamp applied and emits the change callback exactly when the
value changed. -/
theorem reduce_not_special (sc : Bool) (v : String) (st : InputState)
    (k : KeyEvent) (hig : ignoredEvent k = false)
    (hret : k.returnKey = false) :
    reduce sc v st k =
      { state := { cursorOffset := clampStale v st.cursorOffset
                     (reduceEdit sc v st k).1.cursorOffset,
                   cursorWidth := (reduceEdit sc v st k).1.cursorWidth,
                   isHighlighted := (reduceEdit sc v st k).1.isHighlighted },
        stateWritten := true, value := (reduceEdit sc v st k).2,
        submitted := none,
        changed := if (reduceEdit sc v st k).2 ≠ v
                   then some (reduceEdit sc v st k).2 else none } := by
  simp [reduce, hig, hret]

/-- Arrow events never touch the value. -/
theorem reduceEdit_value_arrow (sc : Bool) (v : String) (st : InputState)
    (k : KeyEvent) (h : k.leftArrow = true ∨ k.rightArrow = true) :
    (reduceEdit sc v st k).2 = v := by
  unfold reduceEdit
  by_cases hl : k.leftArrow = true
  · simp only [hl, if_true]
    split <;> rfl
  · rcases h with h | h
    · exact absurd h hl
    · simp only [hl, h, if_false, if_true, Bool.false_eq_true]
      split <;> rfl

/-- C1: REFUTED on the code as written.  With showCursor enabled, a
left-arrow at `cursorOffset = 0` on value "a" stores `cursorOffset = -1`,
and a right-arrow at `cursorOffset = 1` (the end of "a") stores
`cursorOffset = 2 > length`.  The post-step clamp (source lines 240-246)
tests the stale pre-step `cursorOffset` instead of the freshly computed
`nextCursorOffset`, so the state produced by a single reducer step leaves
the range `[0, length(v)]` claimed invariant. -/
theorem reduce_arrow_step_escapes_cursor_range :
    (reduce true "a" ⟨0, 0, false⟩ { noKeys with leftArrow := true
      }).state.cursorOffset = -1 ∧
    (reduce true "a" ⟨1, 0, false⟩ { noKeys with rightArrow := true
      }).state.cursorOffset = 2 := by decide

/-- C4: a return key event emits the submit callback exactly once with the
current (pre-edit) value, performs no state write (state unchanged), and
emits no change callback. -/
theorem reduce_return_submits (sc : Bool) (v : String) (st : InputState)
    (k : KeyEvent) (hret : k.returnKey = true)
    (hig : ignoredEvent k = false) :
    reduce sc v st k =
      { state := st, stateWritten := false, value := v,
        submitted := some v, changed := none } := by
  simp [reduce, hig, hret]

/-- C4 witness: Enter on value "query" submits "query" and changes
nothing. -/
theorem reduce_return_submits_witness :
    reduce true "query" ⟨5, 0, false⟩ { noKeys with returnKey := true } =
      { state := ⟨5, 0, false⟩, stateWritten := false, value := "query",
        submitted := some "query", changed := none } :=
  reduce_return_submits true "query" ⟨5, 0, false⟩
    { noKeys with returnKey := true } rfl rfl

/-- C9: whenever focus is false, the focus/highlight reconciliation effect
sets isHighlighted to false, regardless of highlightOnFocus and of any
prior state, and the value-clamp effect preserves that; so isHighlighted is
never true after reconciliation while focus is false. -/
theorem focusEffect_unfocus_clears_highlight (hof : Bool) (v : String)
    (st : InputState) :
    (focusEffect false hof v st).isHighlighted = false ∧
    (valueEffect v (focusEffect false hof v st)).isHighlighted = false := by
  constructor
  · simp [focusEffect]
  · simp only [focusEffect, valueEffect]
    simp
    split <;> rfl

/-- C5 counterexample: an empty-input event with no modifier flags,
arriving while isHighlighted is true on value "a", replaces the value by ""
and fires the change callback with "" — the claim says the callback never
fires for an empty input string with no modifier flags. -/
theorem reduce_empty_input_fires_onChange :
    (reduce true "a" ⟨1, 0, true⟩ noKeys).changed = some "" ∧
    noKeys.input = "" := by decide

/-- C6 counterexample: backspace at cursorOffset 0 on value "a" with
cursorWidth 5 still runs setState and resets cursorWidth to 0, so the
state is not entirely unchanged as claimed. -/
theorem reduce_backspace_at_zero_changes_state :
    (reduce true "a" ⟨0, 5, false⟩ { noKeys with backspace := true
      }).state = ⟨0, 0, false⟩ ∧
    (⟨0, 0, false⟩ : InputState) ≠ ⟨0, 5, false⟩ := by decide

/-- C7 counterexample: the two-character mask "ab" on the one-character
value "x" displays "ab", of length 2 ≠ 1: mask application is not
length-preserving for masks of length ≠ 1. -/
theorem maskValue_not_length_preserving :
    maskValue (some "ab") "x" = "ab" ∧
    (maskValue (some "ab") "x").length = 2 ∧ "x".length = 1 := by decide

/-- C8 counterexample: value "a" with the cursor at its end in cursor mode
(showCursor, focus, not highlighted, no mask, no placeholder): the renderer
appends a trailing inverse space, so stripping the styling yields "a ",
not the displayed (masked) value "a". -/
theorem strip_render_not_roundtrip :
    stripStyles (render ⟨"", true, none, true, false⟩ "a" ⟨1, 0, false⟩) =
      "a " ∧
    maskValue none "a" = "a" ∧ ("a " : String) ≠ "a" := by decide

/-- C10 counterexample: ctrl+a delivering "a" while the value "a" is
highlighted is handled (setState runs, the whole value is replaced by the
input), but the change callback is NOT invoked, because the replacement
equals the previous value — the claim asserts the callback fires for every
ctrl+letter event other than ctrl+c. -/
theorem reduce_ctrl_letter_no_callback :
    (reduce true "a" ⟨1, 0, true⟩ { noKeys with input := "a", ctrl := true
      }).stateWritten = true ∧
    (reduce true "a" ⟨1, 0, true⟩ { noKeys with input := "a", ctrl := true
      }).value = "a" ∧
    (reduce true "a" ⟨1, 0, true⟩ { noKeys with input := "a", ctrl := true
      }).changed = none := by decide

/-- C2: typing a single printable character c (no special key flag set,
isHighlighted false) at cursorOffset = k with 0 ≤ k ≤ length(v) produces
the value v[0:k] + c + v[k:], cursorOffset k + 1 and cursorWidth 0. -/
theorem reduce_insert_single_char (sc : Bool) (v : String) (k w : Nat)
    (c : Char) (hk : k ≤ v.length) :
    (reduce sc v ⟨(k : Int), w, false⟩ { noKeys with input := String.mk [c]
      }).value =
        String.mk (v.toList.take k) ++ String.mk [c] ++
          String.mk (v.toList.drop k) ∧
    (reduce sc v ⟨(k : Int), w, false⟩ { noKeys with input := String.mk [c]
      }).state.cursorOffset = (k : Int) + 1 ∧
    (reduce sc v ⟨(k : Int), w, false⟩ { noKeys with input := String.mk [c]
      }).state.cursorWidth = 0 := by
  have h1 : ¬ ((k : Int) < 0) := by omega
  have h2 : ¬ ((k : Int) > (v.length : Int)) := by
    exact_mod_cast Nat.not_lt.mpr hk
  have hc : (String.mk [c]).length = 1 := rfl
  simp [reduce, reduceEdit, clampStale, ignoredEvent, noKeys, h1, h2, hc,
    jsSlice_take v k hk, jsSlice_suffix v k]

/-- C2 witness: typing x at offset 1 of "ab". -/
theorem reduce_insert_single_char_witness :
    (reduce true "ab" ⟨((1 : Nat) : Int), 0, false⟩
        { noKeys with input := String.mk ['x'] }).value =
      String.mk ("ab".toList.take 1) ++ String.mk ['x'] ++
        String.mk ("ab".toList.drop 1) ∧
    (reduce true "ab" ⟨((1 : Nat) : Int), 0, false⟩
        { noKeys with input := String.mk ['x'] }).state.cursorOffset =
      ((1 : Nat) : Int) + 1 ∧
    (reduce true "ab" ⟨((1 : Nat) : Int), 0, false⟩
        { noKeys with input := String.mk ['x'] }).state.cursorWidth = 0 :=
  reduce_insert_single_char true "ab" 1 0 'x' (by decide)

/-- C3: while isHighlighted is true (highlighted states keep the cursor in
[0, length], as established by the focus effect), any printable event
replaces the entire value by the input, moves the cursor to length(input)
and clears the highlight; moreover, after the focus effect with focus and
highlightOnFocus both true, the state is highlighted, so the next printable
keystroke replaces the whole value. -/
theorem reduce_highlighted_replaces (sc : Bool) (v s : String) (off : Int)
    (w : Nat) (st : InputState) (h0 : 0 ≤ off)
    (hlen : off ≤ (v.length : Int)) :
    ((reduce sc v ⟨off, w, true⟩ { noKeys with input := s }).value = s ∧
     (reduce sc v ⟨off, w, true⟩ { noKeys with input := s
       }).state.cursorOffset = (s.length : Int) ∧
     (reduce sc v ⟨off, w, true⟩ { noKeys with input := s
       }).state.isHighlighted = false) ∧
    ((focusEffect true true v st).isHighlighted = true ∧
     (reduce sc v (focusEffect true true v st) { noKeys with input := s
       }).value = s) := by
  have h1 : ¬ (off < 0) := by omega
  have h2 : ¬ (off > (v.length : Int)) := by omega
  have h3 : ¬ ((v.length : Int) < 0) := by omega
  have h4 : ¬ ((v.length : Int) > (v.length : Int)) := by omega
  refine ⟨?_, ?_, ?_⟩
  · simp [reduce, reduceEdit, clampStale, ignoredEvent, noKeys, h1, h2]
  · simp [focusEffect]
  · simp [focusEffect, reduce, reduceEdit, clampStale, ignoredEvent, noKeys,
      h3, h4]

/-- C3 witness: a printable keystroke after focus with highlightOnFocus
replaces "old" wholesale. -/
theorem reduce_highlighted_replaces_witness :
    ((reduce true "old" ⟨2, 0, true⟩ { noKeys with input := "ne" }).value =
        "ne" ∧
     (reduce true "old" ⟨2, 0, true⟩ { noKeys with input := "ne"
       }).state.cursorOffset = ("ne".length : Int) ∧
     (reduce true "old" ⟨2, 0, true⟩ { noKeys with input := "ne"
       }).state.isHighlighted = false) ∧
    ((focusEffect true true "old" ⟨0, 0, false⟩).isHighlighted = true ∧
     (reduce true "old" (focusEffect true true "old" ⟨0, 0, false⟩)
       { noKeys with input := "ne" }).value = "ne") :=
  reduce_highlighted_replaces true "old" "ne" 2 0 ⟨0, 0, false⟩ (by decide)
    (by decide)

/-- C5 (amended): on every handled (non-ignored, non-return) event the
change callback is emitted exactly once, with the new value, iff the
resulting value differs from the pre-event value; it is never emitted for
arrow (cursor-move) events; for an empty input with no modifier flags it is
never emitted while isHighlighted is false, while with isHighlighted true
the value is replaced by "" and the callback is silent exactly when the
prior value was already empty. -/
theorem reduce_changed_characterization (sc : Bool) (v : String)
    (st : InputState) (k : KeyEvent) (hig : ignoredEvent k = false)
    (hret : k.returnKey = false) :
    ((reduce sc v st k).changed = none ↔ (reduce sc v st k).value = v) ∧
    (∀ u, (reduce sc v st k).changed = some u →
      u = (reduce sc v st k).value ∧ (reduce sc v st k).value ≠ v) ∧
    (k.leftArrow = true ∨ k.rightArrow = true →
      (reduce sc v st k).changed = none) ∧
    (k.input = "" ∧ k.leftArrow = false ∧ k.rightArrow = false ∧
        k.backspace = false ∧ k.del = false ∧ st.isHighlighted = false →
      (reduce sc v st k).changed = none) ∧
    (k.input = "" ∧ k.leftArrow = false ∧ k.rightArrow = false ∧
        k.backspace = false ∧ k.del = false ∧ st.isHighlighted = true →
      ((reduce sc v st k).changed = none ↔ v = "")) := by
  rw [reduce_not_special sc v st k hig hret]
  refine ⟨?_, ?_, ?_, ?_, ?_⟩
  · by_cases h : (reduceEdit sc v st k).2 = v <;> simp [h]
  · intro u hu
    by_cases h : (reduceEdit sc v st k).2 = v
    · simp [h] at hu
    · simp [h] at hu
      simp [h, hu]
      exact fun hv => h (hu.trans hv)
  · intro h
    simp [reduceEdit_value_arrow sc v st k h]
  · rintro ⟨hin, hl, hr, hb, hd, hhi⟩
    have hval : (reduceEdit sc v st k).2 = v := by
      unfold reduceEdit
      simp only [hl, hr, hb, hd, hhi, hin, Bool.false_eq_true, if_false,
        Bool.or_self]
      simp
      exact jsSlice_splice_id v st.cursorOffset
    simp [hval]
  · rintro ⟨hin, hl, hr, hb, hd, hhi⟩
    have hval : (reduceEdit sc v st k).2 = "" := by
      unfold reduceEdit
      simp [hl, hr, hb, hd, hhi, hin]
    rw [hval]
    by_cases h : v = "" <;> simp [h]
    exact fun h2 => h h2.symm

/-- C5 witness: a backspace at offset 1 of "ab" changes the value to "b"
and emits the callback with it; instantiating the characterization at that
event. -/
theorem reduce_changed_characterization_witness :
    ((reduce true "ab" ⟨1, 0, false⟩ { noKeys with backspace := true
       }).changed = none ↔
      (reduce true "ab" ⟨1, 0, false⟩ { noKeys with backspace := true
        }).value = "ab") ∧
    (∀ u, (reduce true "ab" ⟨1, 0, false⟩ { noKeys with backspace := true
        }).changed = some u →
      u = (reduce true "ab" ⟨1, 0, false⟩ { noKeys with backspace := true
        }).value ∧
      (reduce true "ab" ⟨1, 0, false⟩ { noKeys with backspace := true
        }).value ≠ "ab") ∧
    (({ noKeys with backspace := true } :
        KeyEvent).leftArrow = true ∨
      ({ noKeys with backspace := true } : KeyEvent).rightArrow = true →
      (reduce true "ab" ⟨1, 0, false⟩ { noKeys with backspace := true
        }).changed = none) ∧
    (({ noKeys with backspace := true } : KeyEvent).input = "" ∧
        ({ noKeys with backspace := true } : KeyEvent).leftArrow = false ∧
        ({ noKeys with backspace := true } : KeyEvent).rightArrow = false ∧
        ({ noKeys with backspace := true } : KeyEvent).backspace = false ∧
        ({ noKeys with backspace := true } : KeyEvent).del = false ∧
        (⟨1, 0, false⟩ : InputState).isHighlighted = false →
      (reduce true "ab" ⟨1, 0, false⟩ { noKeys with backspace := true
        }).changed = none) ∧
    (({ noKeys with backspace := true } : KeyEvent).input = "" ∧
        ({ noKeys with backspace := true } : KeyEvent).leftArrow = false ∧
        ({ noKeys with backspace := true } : KeyEvent).rightArrow = false ∧
        ({ noKeys with backspace := true } : KeyEvent).backspace = false ∧
        ({ noKeys with backspace := true } : KeyEvent).del = false ∧
        (⟨1, 0, false⟩ : InputState).isHighlighted = true →
      ((reduce true "ab" ⟨1, 0, false⟩ { noKeys with backspace := true
        }).changed = none ↔ "ab" = "")) :=
  reduce_changed_characterization true "ab" ⟨1, 0, false⟩
    { noKeys with backspace := true } rfl rfl

/-- C6 (amended): a backspace or delete event at cursorOffset = 0 leaves
the value unchanged, emits no change callback, and keeps cursorOffset and
isHighlighted; but setState still runs with cursorWidth reset to 0, so the
full state differs whenever the prior cursorWidth was non-zero. -/
theorem reduce_backspace_at_zero (sc : Bool) (v : String) (w : Nat)
    (hi : Bool) (k : KeyEvent) (hbs : k.backspace = true ∨ k.del = true)
    (hl : k.leftArrow = false) (hr : k.rightArrow = false)
    (hig : ignoredEvent k = false) (hret : k.returnKey = false) :
    reduce sc v ⟨0, w, hi⟩ k =
      { state := ⟨0, 0, hi⟩, stateWritten := true, value := v,
        submitted := none, changed := none } := by
  have hb : (k.backspace || k.del) = true := by
    rcases hbs with h | h <;> simp [h]
  have h0 : ¬ ((0 : Int) > (v.length : Int)) := by omega
  simp [reduce, reduceEdit, clampStale, hig, hret, hl, hr, hb, h0]

/-- C6 amended witness: backspace at offset 0 of "a" with cursorWidth 5. -/
theorem reduce_backspace_at_zero_witness :
    reduce true "a" ⟨0, 5, false⟩ { noKeys with backspace := true } =
      { state := ⟨0, 0, false⟩, stateWritten := true, value := "a",
        submitted := none, changed := none } :=
  reduce_backspace_at_zero true "a" 5 false
    { noKeys with backspace := true } (Or.inl rfl) rfl rfl rfl rfl

/-- C7 (amended): for every non-empty mask m, the displayed value is m
repeated once per character of v (length(v) repetitions), its length is
length(v) * length(m), and the masking is length-preserving exactly when
the mask is a single character or the value is empty. -/
theorem maskValue_repeat (m v : String) (hm : 0 < m.length) :
    maskValue (some m) v = repeatStr m v.length ∧
    (maskValue (some m) v).length = v.length * m.length ∧
    ((maskValue (some m) v).length = v.length ↔
      m.length = 1 ∨ v.length = 0) := by
  have h1 : maskValue (some m) v = repeatStr m v.length := by
    unfold maskValue
    simp [hm]
  refine ⟨h1, ?_, ?_⟩
  · rw [h1, repeatStr_length]
  · rw [h1, repeatStr_length]
    constructor
    · intro h
      rcases Nat.eq_zero_or_pos v.length with h0 | h0
      · exact Or.inr h0
      · refine Or.inl (Nat.eq_of_mul_eq_mul_left h0 ?_)
        rw [Nat.mul_one]
        exact h
    · rintro (h | h)
      · rw [h, Nat.mul_one]
      · rw [h, Nat.zero_mul]

/-- C7 amended witness: mask "ab" on "xy" displays "abab" of length 4. -/
theorem maskValue_repeat_witness :
    maskValue (some "ab") "xy" = repeatStr "ab" "xy".length ∧
    (maskValue (some "ab") "xy").length = "xy".length * "ab".length ∧
    ((maskValue (some "ab") "xy").length = "xy".length ↔
      "ab".length = 1 ∨ "xy".length = 0) :=
  maskValue_repeat "ab" "xy" (by decide)

/-- Stripping cursor-mode rendering of a non-empty displayed value yields
the value, plus a trailing space exactly when the cursor sits at its end. -/
theorem stripStyles_renderedValueCursor (off : Int) (w : Nat)
    (value : String) (hv : 0 < value.length) :
    stripStyles (renderedValueCursor off w value) =
      value ++ (if off = (value.length : Int) then " " else "") := by
  unfold renderedValueCursor
  rw [if_pos hv, List.nil_append, stripStyles_append, stripStyles_cursorLoop,
    mk_toList]
  by_cases h : off = (value.length : Int)
  · rw [if_pos ⟨hv, h⟩, if_pos h]
    simp [stripStyles]
  · rw [if_neg (fun hc => h hc.2), if_neg h]
    simp [stripStyles]

/-- C8 (amended): whenever the displayed (masked) value is non-empty — so
it, and not the placeholder, is what gets rendered — stripping all styling
markers from the rendered output reproduces the displayed value exactly,
except that in cursor mode (showCursor ∧ focus ∧ ¬isHighlighted) with the
cursor exactly at the end of the displayed value the renderer appends one
trailing (inverse) space. -/
theorem strip_render_roundtrip (cfg : RenderConfig) (v : String)
    (st : InputState) (hv : 0 < (maskValue cfg.mask v).length) :
    stripStyles (render cfg v st) =
      maskValue cfg.mask v ++
        (if cfg.showCursor = true ∧ cfg.focus = true ∧
            st.isHighlighted = false ∧
            st.cursorOffset = ((maskValue cfg.mask v).length : Int)
         then " " else "") := by
  have hsv : ∀ (off : Int) (w : Nat),
      stripStyles (renderedValueCursor off w (maskValue cfg.mask v)) =
        maskValue cfg.mask v ++
          (if off = ((maskValue cfg.mask v).length : Int) then " "
           else "") :=
    fun off w => stripStyles_renderedValueCursor off w _ hv
  unfold render
  by_cases hm : (cfg.showCursor && cfg.focus && !st.isHighlighted) = true
  · have hm' := hm
    simp only [Bool.and_eq_true, Bool.not_eq_true'] at hm'
    obtain ⟨⟨h1, h2⟩, h3⟩ := hm'
    by_cases hp : cfg.placeholder.length > 0 <;>
      simp [hm, hp, hv, hsv, h1, h2, h3]
  · have hno : ¬ (cfg.showCursor = true ∧ cfg.focus = true ∧
        st.isHighlighted = false ∧
        st.cursorOffset = ((maskValue cfg.mask v).length : Int)) := by
      rintro ⟨a, b, c, -⟩
      exact hm (by simp [a, b, c])
    rw [if_neg hno]
    by_cases hhi : st.isHighlighted = true
    · by_cases hp : cfg.placeholder.length > 0 <;>
        simp [hm, hhi, hp, hv, stripStyles]
    · have hf : st.isHighlighted = false := by
        revert hhi
        cases st.isHighlighted <;> simp
      have hscf : ¬ (cfg.showCursor = true ∧ cfg.focus = true) := by
        rintro ⟨a, b⟩
        exact hm (by simp [a, b, hf])
      by_cases hp : cfg.placeholder.length > 0 <;>
        simp [hm, hf, hp, hv, hscf, stripStyles]

/-- C8 amended witness: value "ab", cursor at offset 1 in cursor mode —
stripping reproduces "ab" with no trailing space (the cursor is not at the
end). -/
theorem strip_render_roundtrip_witness :
    stripStyles (render ⟨"", true, none, true, false⟩ "ab" ⟨1, 0, false⟩) =
      maskValue none "ab" ++
        (if (true : Bool) = true ∧ (true : Bool) = true ∧
            (false : Bool) = false ∧
            (1 : Int) = ((maskValue none "ab").length : Int)
         then " " else "") :=
  strip_render_roundtrip ⟨"", true, none, true, false⟩ "ab" ⟨1, 0, false⟩
    (by decide)

/-- C10 (amended): a ctrl-modified event delivering a single-character
payload other than "c" is not filtered out: it reaches the printable-input
branch, splices the payload into the value at the cursor (or replaces the
whole value when isHighlighted), and the change callback fires with the new
value — always in the insert case, and in the highlighted-replace case
exactly when the payload differs from the prior value; ctrl+c itself is
ignored. -/
theorem reduce_ctrl_letter (sc : Bool) (v s : String) (kk w : Nat)
    (hs1 : s.length = 1) (hsc : s ≠ "c") (hk : kk ≤ v.length) :
    ignoredEvent { noKeys with input := s, ctrl := true } = false ∧
    (reduce sc v ⟨(kk : Int), w, false⟩
        { noKeys with input := s, ctrl := true }).value =
      String.mk (v.toList.take kk) ++ s ++ String.mk (v.toList.drop kk) ∧
    (reduce sc v ⟨(kk : Int), w, false⟩
        { noKeys with input := s, ctrl := true }).changed =
      some (String.mk (v.toList.take kk) ++ s ++
        String.mk (v.toList.drop kk)) ∧
    (reduce sc v ⟨(kk : Int), w, true⟩
        { noKeys with input := s, ctrl := true }).value = s ∧
    ((reduce sc v ⟨(kk : Int), w, true⟩
        { noKeys with input := s, ctrl := true }).changed =
      if s = v then none else some s) ∧
    ignoredEvent { noKeys with input := "c", ctrl := true } = true := by
  have hig : ignoredEvent { noKeys with input := s, ctrl := true } =
      false := by
    simp [ignoredEvent, noKeys]
    exact hsc
  have hretA : ({ noKeys with input := s, ctrl := true } :
      KeyEvent).returnKey = false := rfl
  have hr := reduce_not_special sc v ⟨(kk : Int), w, false⟩
    { noKeys with input := s, ctrl := true } hig hretA
  have hrH := reduce_not_special sc v ⟨(kk : Int), w, true⟩
    { noKeys with input := s, ctrl := true } hig hretA
  have hmk1 : (String.mk (v.toList.take kk)).length =
      (v.toList.take kk).length := rfl
  have hmk2 : (String.mk (v.toList.drop kk)).length =
      (v.toList.drop kk).length := rfl
  have hk2 : kk ≤ v.toList.length := hk
  have hlen2 : (String.mk (v.toList.take kk) ++ s ++
      String.mk (v.toList.drop kk)).length = v.length + 1 := by
    rw [String.length_append, String.length_append, hmk1, hmk2, hs1,
      List.length_take, List.length_drop, length_eq_toList_length v]
    omega
  have hne : String.mk (v.toList.take kk) ++ s ++
      String.mk (v.toList.drop kk) ≠ v := by
    intro he
    rw [he] at hlen2
    omega
  refine ⟨hig, ?_, ?_, ?_, ?_, by decide⟩
  · rw [hr]
    simp [reduceEdit, noKeys, jsSlice_take v kk hk, jsSlice_suffix v kk]
  · rw [hr]
    simp [reduceEdit, noKeys, jsSlice_take v kk hk, jsSlice_suffix v kk,
      hne]
    exact hne
  · rw [hrH]
    simp [reduceEdit, noKeys]
  · rw [hrH]
    by_cases h : s = v <;> simp [reduceEdit, noKeys, h]

/-- C10 amended witness: ctrl+x delivering "x" at offset 1 of "ab". -/
theorem reduce_ctrl_letter_witness :
    ignoredEvent { noKeys with input := "x", ctrl := true } = false ∧
    (reduce true "ab" ⟨((1 : Nat) : Int), 0, false⟩
        { noKeys with input := "x", ctrl := true }).value =
      String.mk ("ab".toList.take 1) ++ "x" ++
        String.mk ("ab".toList.drop 1) ∧
    (reduce true "ab" ⟨((1 : Nat) : Int), 0, false⟩
        { noKeys with input := "x", ctrl := true }).changed =
      some (String.mk ("ab".toList.take 1) ++ "x" ++
        String.mk ("ab".toList.drop 1)) ∧
    (reduce true "ab" ⟨((1 : Nat) : Int), 0, true⟩
        { noKeys with input := "x", ctrl := true }).value = "x" ∧
    ((reduce true "ab" ⟨((1 : Nat) : Int), 0, true⟩
        { noKeys with input := "x", ctrl := true }).changed =
      if ("x" : String) = "ab" then none else some "x") ∧
    ignoredEvent { noKeys with input := "c", ctrl := true } = true :=
  reduce_ctrl_letter true "ab" "x" 1 0 (by decide) (by decide) (by decide)
